import Mathlib

/-!
Verification of the two 3D Slicer scripted modules in this repository:
`MangoExtensionV562/EasySegmentation/EasySegmentation.py` and
`ImplantVideoExtension/ImplantVideo/ImplantVideo.py`.

The Python widgets are shallowly embedded: directory contents are lists of
file names, numpy voxel arrays are lists of rationals (the source only
compares and copies voxel values, so the rational order faithfully models
the float order on the values involved), GUI state and scene effects are
explicit record fields, and each event handler becomes a pure function from
its inputs to a result record.  Python's `sorted` on strings (lexicographic
by code point, stable) is modelled by `List.insertionSort (· ≤ ·)` over
`String`, whose order in Mathlib is exactly lexicographic on the character
codes; on the duplicate-free file listings produced by a directory there is
a unique sorted permutation, so any stable sort is a faithful model.
-/

namespace Slicer

/-- Characters of a string after the last '/', as `os.path.basename` keeps
them (`basename "a/b" = "b"`, `basename "a/" = ""`, `basename "ab" = "ab"`). -/
def basenameL (l : List Char) : List Char :=
  (l.reverse.takeWhile (fun c => !(c = '/' : Bool))).reverse

/-- `os.path.basename` on strings. -/
def osBasename (s : String) : String :=
  ⟨basenameL s.data⟩

/-- Index of the first occurrence of `needle` in `hay`, as Python's
`str.find` computes it (`none` models the return value `-1`; an empty
needle is found at index 0). -/
def findSubIdxL (needle : List Char) : List Char → Option Nat
  | [] => if needle = [] then some 0 else none
  | c :: t =>
    if needle.isPrefixOf (c :: t) then some 0
    else (findSubIdxL needle t).map (· + 1)

/-- Python's substring test `needle in hay`. -/
def containsSub (needle hay : String) : Bool :=
  (findSubIdxL needle.data hay.data).isSome

/-- Python's slice `s[:k]`. -/
def takeStr (k : Nat) (s : String) : String :=
  ⟨s.data.take k⟩

/-- Python's `s[:s.find(needle)]`: cut at the first occurrence, and when
`find` returns `-1` the slice `[:-1]` drops the last character. -/
def pySliceToFind (needle s : String) : String :=
  match findSubIdxL needle.data s.data with
  | some k => ⟨s.data.take k⟩
  | none => ⟨s.data.take (s.data.length - 1)⟩

/-- One pass of `re.sub(r"[_-]+", '_', s)`: every maximal run of '-' and
'_' characters becomes a single '_'.  The flag records whether the
previous character belonged to such a run. -/
def normRunsAux : Bool → List Char → List Char
  | _, [] => []
  | inRun, c :: rest =>
    if c = '_' ∨ c = '-' then
      if inRun then normRunsAux true rest
      else '_' :: normRunsAux true rest
    else c :: normRunsAux false rest

/-- `re.sub(r"[_-]+", '_', s)` from the source's fuzzy-name normalisation. -/
def normalizeRuns (s : String) : String :=
  ⟨normRunsAux false s.data⟩

/-- A file name the shell glob hides: one starting with '.'. -/
def isHidden (name : String) : Bool :=
  match name.data with
  | '.' :: _ => true
  | _ => false

/-- `fnmatch` for the glob patterns this repository uses, all of the shape
`pre*suf` (`"*.nrrd"`, `"*.nii"`, `"*.nii.gz"`, `"image_*.png"`): the name
starts with `pre`, the rest ends with `suf`, and a pattern whose `*` is
leading does not match hidden files. -/
def globMatch (pre suf name : String) : Bool :=
  (if pre = "" then !(isHidden name) else decide (pre.data <+: name.data))
  && decide (suf.data <:+ (name.data.drop pre.data.length))

/-- `os.path.join` for the relative two-component joins the source performs. -/
def path_join (a b : String) : String :=
  if a = "" then b
  else if a.data.getLast? = some '/' then a ++ b
  else a ++ "/" ++ b

/-- `glob.glob(os.path.join(dir, "pre*suf"))` over a directory listing:
the matching names, each joined with the directory. -/
def globDir (dir pre suf : String) (listing : List String) : List String :=
  (listing.filter (globMatch pre suf)).map (path_join dir)

/-- Structural lexicographic comparison of character lists, matching
Python's string order (by code point). -/
def lexLe : List Char → List Char → Bool
  | [], _ => true
  | _ :: _, [] => false
  | a :: as, b :: bs => if a < b then true else if b < a then false else lexLe as bs

/-- A structurally computable decision procedure for `String`'s `≤`,
usable by kernel reduction (the library's instance recurses on iterator
positions and does not reduce).  The embedded proof shows `lexLe` decides
the lexicographic list order underlying `String`'s linear order. -/
def decStrLe (a b : String) : Decidable (a ≤ b) :=
  decidable_of_iff (lexLe a.data b.data = true) (by
    rw [show (a ≤ b) ↔ a.data ≤ b.data from String.le_iff_toList_le]
    suffices h : ∀ s t : List Char, lexLe s t = true ↔ s ≤ t from h a.data b.data
    intro s
    induction s with
    | nil =>
      intro t
      simp only [lexLe, true_iff]
      exact List.nil_le
    | cons a as ih =>
      intro t
      cases t with
      | nil =>
        simp only [lexLe, Bool.false_eq_true, false_iff]
        intro h
        exact absurd (List.nil_lt_cons a as) (not_lt.mpr h)
      | cons b bs =>
        simp only [lexLe]
        rcases lt_trichotomy a b with hab | hab | hba
        · simp only [if_pos hab, true_iff]
          exact le_of_lt (List.Lex.rel hab)
        · subst hab
          simp only [if_neg (lt_irrefl a), ih bs]
          constructor
          · exact fun h => List.cons_le_cons a h
          · intro h
            rw [← not_lt] at h ⊢
            exact fun hlt => h (List.Lex.cons hlt)
        · simp only [if_neg (asymm hba), if_pos hba, Bool.false_eq_true, false_iff]
          exact fun h =>
            absurd (show (b :: bs) < (a :: as) from List.Lex.rel hba) (not_lt.mpr h))

/-- Python's `sorted` on strings: lexicographic by code point.  Modelled by
insertion sort, which like Python's sort is stable; on the duplicate-free
listings of a directory the sorted permutation is unique. -/
def pySorted (l : List String) : List String :=
  @List.insertionSort String (· ≤ ·) (fun a b => decStrLe a b) l

end Slicer

namespace EasySegmentation

open Slicer

/-- `self.file_types` from `EasySegmentationWidget.__init__`. -/
def file_types : List String := ["*.nrrd", "*.nii", "*.nii.gz"]

/-- The loop body of `find_basename_wo_extension`: try each file type in
order, and on the first whose extension (the pattern without the leading
'*') occurs in the basename, cut at that first occurrence. -/
def fbweAux : List String → List Char → String
  | [], base => ⟨base⟩
  | t :: rest, base =>
    match findSubIdxL (t.data.drop 1) base with
    | some i => ⟨base.take i⟩
    | none => fbweAux rest base

/-- `EasySegmentationWidget.find_basename_wo_extension`. -/
def find_basename_wo_extension (filepath : String) : String :=
  fbweAux file_types (basenameL filepath.data)

/-- The matching test of the inner loop of `onRun`: normalise both names
(basename, extension stripped, '-'/'_' runs unified) and ask whether either
is a substring of the other. -/
def segMatches (image_file seg_file : String) : Bool :=
  let image_name := normalizeRuns (find_basename_wo_extension image_file)
  let seg_name := normalizeRuns (find_basename_wo_extension seg_file)
  containsSub image_name seg_name || containsSub seg_name image_name

/-- One iteration of the outer loop of `onRun`: pair an image file with the
first matching segmentation file, or with `""` when none matches. -/
def pairImage (seg_files : List String) (image_file : String) : String × String :=
  match seg_files.find? (segMatches image_file) with
  | some s => (image_file, s)
  | none => (image_file, "")

/-- The glob loop of `onRun`: for each pattern of `file_types` in order,
extend with the sorted matches from the directory. -/
def collectFiles (dir : String) (listing : List String) : List String :=
  file_types.foldl (fun acc t => acc ++ pySorted (globDir dir "" (t.drop 1) listing)) []

/-- The widget state `onRun` establishes. -/
structure RunState where
  fileset : List (String × String)
  total_files : Nat
  current_file : Nat

/-- `EasySegmentationWidget.onRun` on the listings of the image and the
segmentation directories. -/
def onRun (imageDirectory segDirectory : String)
    (imageListing segListing : List String) : RunState :=
  let image_files := collectFiles imageDirectory imageListing
  let seg_files := collectFiles segDirectory segListing
  let fileset := image_files.map (pairImage seg_files)
  { fileset := fileset, total_files := fileset.length, current_file := 0 }

/-- `EasySegmentationWidget.onApply`: ensure a segment named `Segment_1`
exists, clear its binary labelmap, and set it to 1 exactly on the voxels of
the current volume inside `[minValue, maxValue]`.  Returns the segment
names of the segmentation node and the new labelmap array. -/
def onApply (segmentNames : List String) (volumeArray : List ℚ)
    (minValue maxValue : ℚ) (segmentArray : List ℤ) : List String × List ℤ :=
  let names := if "Segment_1" ∈ segmentNames then segmentNames
    else segmentNames ++ ["Segment_1"]
  let cleared := segmentArray.map (fun _ => (0 : ℤ))
  let updated := List.zipWith
    (fun v s => if minValue ≤ v ∧ v ≤ maxValue then (1 : ℤ) else s)
    volumeArray cleared
  (names, updated)

/-- `EasySegmentationWidget.onPre`: first component is the new
`current_file`, second is whether the "first file" warning was shown. -/
def onPre (current_file : Nat) : Nat × Bool :=
  if current_file = 0 then (current_file, true)
  else (current_file - 1, false)

/-- `EasySegmentationWidget.onNext`: first component is the new
`current_file`, second is whether the "last file" warning was shown. -/
def onNext (current_file total_files : Nat) : Nat × Bool :=
  if current_file + 1 = total_files then (current_file, true)
  else (current_file + 1, false)

/-- `numpy_array.max()` on the nonempty voxel arrays the source reads. -/
def arrayMax : List ℚ → ℚ
  | [] => 0
  | x :: xs => xs.foldl max x

/-- Observable effects of `EasySegmentationWidget.LoadFiles`.  `none` in an
`Option` field means the handler did not touch that piece of state. -/
structure LoadResult where
  warned : Bool
  volumeLoadedFrom : Option String
  volumeName : Option String
  segLoadedFrom : Option String
  segCreatedName : Option String
  segRefGeometryFromVolume : Bool
  thresholdCheckDisabled : Option Bool
  minBoxDisabled : Option Bool
  maxBoxDisabled : Option Bool
  applyDisabled : Option Bool
  maxBoxValue : Option ℚ

/-- `EasySegmentationWidget.LoadFiles`.  `volumeData` gives the voxel array
stored in each image file; `thresholdChecked` is the state of the threshold
checkbox read by `onThresholdCheck`. -/
def LoadFiles (imageDirectory : String) (total_files : Nat)
    (fileset : List (String × String)) (current_file : Nat)
    (volumeData : String → List ℚ) (thresholdChecked : Bool) : LoadResult :=
  if imageDirectory = "" then
    { warned := true, volumeLoadedFrom := none, volumeName := none,
      segLoadedFrom := none, segCreatedName := none,
      segRefGeometryFromVolume := false, thresholdCheckDisabled := none,
      minBoxDisabled := none, maxBoxDisabled := none, applyDisabled := none,
      maxBoxValue := none }
  else if total_files = 0 then
    { warned := true, volumeLoadedFrom := none, volumeName := none,
      segLoadedFrom := none, segCreatedName := none,
      segRefGeometryFromVolume := false, thresholdCheckDisabled := none,
      minBoxDisabled := none, maxBoxDisabled := none, applyDisabled := none,
      maxBoxValue := none }
  else
    let pair := fileset.getD current_file ("", "")
    let image_name := find_basename_wo_extension pair.1
    if pair.2 ≠ "" then
      { warned := false, volumeLoadedFrom := some pair.1,
        volumeName := some image_name, segLoadedFrom := some pair.2,
        segCreatedName := none, segRefGeometryFromVolume := false,
        thresholdCheckDisabled := some true, minBoxDisabled := some true,
        maxBoxDisabled := some true, applyDisabled := some true,
        maxBoxValue := none }
    else
      { warned := false, volumeLoadedFrom := some pair.1,
        volumeName := some image_name, segLoadedFrom := none,
        segCreatedName := some image_name, segRefGeometryFromVolume := true,
        thresholdCheckDisabled := some false,
        minBoxDisabled := some (!thresholdChecked),
        maxBoxDisabled := some (!thresholdChecked),
        applyDisabled := some (!thresholdChecked),
        maxBoxValue := some (arrayMax (volumeData pair.1)) }

/-- Observable effects of `EasySegmentationWidget.onSave`. -/
structure SaveResult where
  warned : Bool
  imageDirEnsured : Bool
  imageSavedPath : Option String
  segDirEnsured : Bool
  segSavedPath : Option String
  colorNodeRemoved : Bool
  labelmapRemoved : Bool

/-- `EasySegmentationWidget.onSave`.  `segNodeName` is the name of the
current segmentation node, read when the pair has no segmentation file. -/
def onSave (saveDirectory : String) (total_files : Nat)
    (fileset : List (String × String)) (current_file : Nat)
    (segNodeName : String) (imageChecked segChecked : Bool)
    (suffixChecked : Bool) (suffixText : String) : SaveResult :=
  if saveDirectory = "" then
    { warned := true, imageDirEnsured := false, imageSavedPath := none,
      segDirEnsured := false, segSavedPath := none,
      colorNodeRemoved := false, labelmapRemoved := false }
  else if total_files = 0 then
    { warned := true, imageDirEnsured := false, imageSavedPath := none,
      segDirEnsured := false, segSavedPath := none,
      colorNodeRemoved := false, labelmapRemoved := false }
  else
    let pair := fileset.getD current_file ("", "")
    let imagePath :=
      if imageChecked then
        some (path_join (path_join saveDirectory "image")
          (find_basename_wo_extension pair.1 ++ ".nii.gz"))
      else none
    if segChecked then
      let segFile := if pair.2 ≠ "" then osBasename pair.2 else segNodeName
      let segFileName := find_basename_wo_extension segFile
      let seg_path := path_join (path_join saveDirectory "segmentation")
        (if suffixChecked then segFileName ++ suffixText ++ ".nii.gz"
         else segFileName ++ ".nii.gz")
      { warned := false, imageDirEnsured := imageChecked,
        imageSavedPath := imagePath, segDirEnsured := true,
        segSavedPath := some seg_path, colorNodeRemoved := true,
        labelmapRemoved := true }
    else
      { warned := false, imageDirEnsured := imageChecked,
        imageSavedPath := imagePath, segDirEnsured := false,
        segSavedPath := none, colorNodeRemoved := false,
        labelmapRemoved := false }

end EasySegmentation

namespace ImplantVideo

open Slicer

/-- The widget state `onRun` establishes. -/
structure RunState where
  fileset : List String
  total_files : Nat
  current_file : Nat

/-- `ImplantVideoWidget.onRun`: the sorted `*.nii.gz` glob of the image
directory. -/
def onRun (imageDirectory : String) (imageListing : List String) : RunState :=
  let fileset := pySorted (globDir imageDirectory "" ".nii.gz" imageListing)
  { fileset := fileset, total_files := fileset.length, current_file := 0 }

/-- `ImplantVideoWidget.onPre`: new `current_file` and whether the "first
file" warning was shown. -/
def onPre (current_file : Nat) : Nat × Bool :=
  if current_file = 0 then (current_file, true)
  else (current_file - 1, false)

/-- `ImplantVideoWidget.onNext`: new `current_file` and whether the "last
file" warning was shown. -/
def onNext (current_file total_files : Nat) : Nat × Bool :=
  if current_file + 1 = total_files then (current_file, true)
  else (current_file + 1, false)

/-- The in-place voxel update of `ImplantVideoWidget.LoadFiles`:
`voxels[voxels < 2000] = 0`. -/
def thresholdVoxels (voxels : List ℚ) : List ℚ :=
  voxels.map (fun v => if v < 2000 then 0 else v)

/-- Decimal digits of `n`, zero-padded on the left to width 5: the `%05d`
field of the screenshot pattern. -/
def pad5 (n : Nat) : String :=
  let s := toString n
  ⟨List.replicate (5 - s.data.length) '0' ++ s.data⟩

/-- Modelled from the spec: `ScreenCapture.ScreenCaptureLogic().capture3dViewRotation`
belongs to the host application, not to this repository; per the spec it
"batches volumes into a rotating screenshot sequence", writing
`numberOfImages` frames named by the pattern `image_%05d.png` into the
output directory.  These are the file names it writes. -/
def captureOutputs (numberOfImages : Nat) : List String :=
  (List.range numberOfImages).map (fun i => "image_" ++ pad5 i ++ ".png")

/-- Observable effects of `ImplantVideoWidget.onCreateVideo`. -/
structure VideoResult where
  captureStart : Int
  captureEnd : Int
  captureFrames : Nat
  capturePattern : String
  captured : List String
  imagesUsed : List String
  fps : Nat
  videoFile : String
  videoName : String
  fsAfter : List String

instance : Inhabited VideoResult :=
  ⟨{ captureStart := 0, captureEnd := 0, captureFrames := 0, capturePattern := "",
     captured := [], imagesUsed := [], fps := 0, videoFile := "", videoName := "",
     fsAfter := [] }⟩

/-- `ImplantVideoWidget.onCreateVideo` on the listing `fs` of the save
directory: capture the rotation frames, glob and sort `image_*.png`, write
the video named after the current file, then remove every globbed image.
Returns `none` exactly when the handler warned and returned early. -/
def onCreateVideo (saveDirectory : String) (fileset : List String)
    (current_file : Nat) (fs : List String) : Option VideoResult :=
  if saveDirectory = "" then none
  else
    let image_basename := osBasename (fileset.getD current_file "")
    let image_name := pySliceToFind ".nii.gz" image_basename
    let video_name := image_name ++ ".mp4"
    let video_file := path_join saveDirectory video_name
    let captured := captureOutputs 360
    let fsMid := fs.filter (fun f => !(f ∈ captured : Bool)) ++ captured
    let images_list :=
      pySorted (pySorted (globDir saveDirectory "image_" ".png" fsMid))
    let fsVideo := fsMid.filter (fun f => !(f = video_name : Bool)) ++ [video_name]
    let fsAfter := fsVideo.filter
      (fun f => !(path_join saveDirectory f ∈ images_list : Bool))
    some { captureStart := -180, captureEnd := 180, captureFrames := 360,
           capturePattern := "image_%05d.png", captured := captured,
           imagesUsed := images_list, fps := 60, videoFile := video_file,
           videoName := video_name, fsAfter := fsAfter }

end ImplantVideo

/-! ## Supporting lemmas -/

/-- The thresholding assignment of `onApply` does not depend on the
previous content of the cleared segment array. -/
theorem zipThreshold_eq_map (minValue maxValue : ℚ) :
    ∀ (vol : List ℚ) (old : List ℤ), old.length = vol.length →
      List.zipWith (fun v s => if minValue ≤ v ∧ v ≤ maxValue then (1 : ℤ) else s)
        vol (old.map fun _ => (0 : ℤ))
      = vol.map (fun v => if minValue ≤ v ∧ v ≤ maxValue then (1 : ℤ) else 0)
  | [], _, _ => by simp
  | _ :: _, [], h => by simp at h
  | v :: vs, _ :: os, h => by
    simp only [List.map_cons, List.zipWith_cons_cons]
    rw [zipThreshold_eq_map minValue maxValue vs os (by simpa using h)]

/-! ## Claims -/

/-- C9: in both widgets, from a state with `0 < total_files` and
`current_file < total_files`, `onPre` and `onNext` keep `current_file`
inside `[0, total_files)` (the lower bound holds in `ℕ` by construction):
at index 0 `onPre` warns and leaves the index unchanged, at the last index
`onNext` warns and leaves the index unchanged, and otherwise they
decrement, respectively increment, by exactly 1. -/
theorem claim_C9 (current_file total_files : Nat)
    (htotal : 0 < total_files) (hcur : current_file < total_files) :
    ((EasySegmentation.onPre current_file).1 < total_files ∧
      (ImplantVideo.onPre current_file).1 < total_files ∧
      (EasySegmentation.onNext current_file total_files).1 < total_files ∧
      (ImplantVideo.onNext current_file total_files).1 < total_files) ∧
    (current_file = 0 →
      EasySegmentation.onPre current_file = (current_file, true) ∧
      ImplantVideo.onPre current_file = (current_file, true)) ∧
    (current_file = total_files - 1 →
      EasySegmentation.onNext current_file total_files = (current_file, true) ∧
      ImplantVideo.onNext current_file total_files = (current_file, true)) ∧
    (current_file ≠ 0 →
      EasySegmentation.onPre current_file = (current_file - 1, false) ∧
      ImplantVideo.onPre current_file = (current_file - 1, false)) ∧
    (current_file ≠ total_files - 1 →
      EasySegmentation.onNext current_file total_files = (current_file + 1, false) ∧
      ImplantVideo.onNext current_file total_files = (current_file + 1, false)) := by
  unfold EasySegmentation.onPre EasySegmentation.onNext
    ImplantVideo.onPre ImplantVideo.onNext
  refine ⟨⟨?_, ?_, ?_, ?_⟩, fun h0 => ?_, fun hl => ?_, fun h0 => ?_, fun hl => ?_⟩
  · split_ifs <;> omega
  · split_ifs <;> omega
  · split_ifs <;> omega
  · split_ifs <;> omega
  · simp [h0]
  · have h : current_file + 1 = total_files := by omega
    simp [h]
  · simp [h0]
  · have h : current_file + 1 ≠ total_files := by omega
    simp [h]

/-- Witness for C9 at `current_file = 1`, `total_files = 3`. -/
theorem claim_C9_witness :
    0 < 3 ∧ 1 < 3 ∧
      (EasySegmentation.onPre 1 = (0, false) ∧ ImplantVideo.onPre 1 = (0, false)) :=
  ⟨by decide, by decide, (claim_C9 1 3 (by decide) (by decide)).2.2.2.1 (by decide)⟩

/-- C8: the in-place update of `ImplantVideoWidget.LoadFiles` zeroes every
voxel strictly below 2000 and keeps every voxel at or above 2000. -/
theorem claim_C8 (voxels : List ℚ) (i : Nat) (hi : i < voxels.length) :
    (ImplantVideo.thresholdVoxels voxels).length = voxels.length ∧
    (voxels.getD i 0 < 2000 → (ImplantVideo.thresholdVoxels voxels).getD i 0 = 0) ∧
    (2000 ≤ voxels.getD i 0 →
      (ImplantVideo.thresholdVoxels voxels).getD i 0 = voxels.getD i 0) := by
  have hi2 : i < (ImplantVideo.thresholdVoxels voxels).length := by
    simpa [ImplantVideo.thresholdVoxels] using hi
  rw [List.getD_eq_getElem _ _ hi, List.getD_eq_getElem _ _ hi2]
  unfold ImplantVideo.thresholdVoxels
  refine ⟨by simp, ?_, ?_⟩
  · intro h
    rw [List.getElem_map]
    exact if_pos (by simpa using h)
  · intro h
    rw [List.getElem_map]
    exact if_neg (not_lt.mpr (by simpa using h))

/-- Witness for C8 on the voxel array `[1999, 2500]`. -/
theorem claim_C8_witness :
    0 < ([(1999 : ℚ), 2500]).length ∧
      ([(1999 : ℚ), 2500].getD 0 0 < 2000 →
        (ImplantVideo.thresholdVoxels [(1999 : ℚ), 2500]).getD 0 0 = 0) :=
  ⟨by decide, (claim_C8 [(1999 : ℚ), 2500] 0 (by decide)).2.1⟩

/-- C2: after `onApply`, the segmentation has a segment named `Segment_1`
(created when absent), the segment labelmap marks exactly the voxels inside
`[minValue, maxValue]`, every voxel outside is 0, and the previous content
of the segment array is discarded (the result does not depend on it). -/
theorem claim_C2 (segmentNames : List String) (volumeArray : List ℚ)
    (minValue maxValue : ℚ) (segmentArray : List ℤ)
    (hlen : segmentArray.length = volumeArray.length) (i : Nat)
    (hi : i < volumeArray.length) :
    "Segment_1" ∈
      (EasySegmentation.onApply segmentNames volumeArray minValue maxValue segmentArray).1 ∧
    (EasySegmentation.onApply segmentNames volumeArray minValue maxValue segmentArray).2.length
      = volumeArray.length ∧
    (EasySegmentation.onApply segmentNames volumeArray minValue maxValue segmentArray).2.getD i 0
      = (if minValue ≤ volumeArray.getD i 0 ∧ volumeArray.getD i 0 ≤ maxValue
          then 1 else 0) ∧
    (∀ other : List ℤ, other.length = volumeArray.length →
      (EasySegmentation.onApply segmentNames volumeArray minValue maxValue other).2
        = (EasySegmentation.onApply segmentNames volumeArray minValue maxValue segmentArray).2) := by
  have harr : ∀ old : List ℤ, old.length = volumeArray.length →
      (EasySegmentation.onApply segmentNames volumeArray minValue maxValue old).2
        = volumeArray.map
            (fun v => if minValue ≤ v ∧ v ≤ maxValue then (1 : ℤ) else 0) := by
    intro old h
    unfold EasySegmentation.onApply
    exact zipThreshold_eq_map minValue maxValue volumeArray old h
  refine ⟨?_, ?_, ?_, ?_⟩
  · unfold EasySegmentation.onApply
    by_cases h : "Segment_1" ∈ segmentNames <;> simp [h]
  · rw [harr segmentArray hlen]
    simp
  · have hb : i < (volumeArray.map
        (fun v => if minValue ≤ v ∧ v ≤ maxValue then (1 : ℤ) else 0)).length := by
      simpa using hi
    rw [harr segmentArray hlen, List.getD_eq_getElem _ _ hb,
      List.getD_eq_getElem _ _ hi, List.getElem_map]
  · intro other hother
    rw [harr other hother, harr segmentArray hlen]

/-- Witness for C2 on a two-voxel volume with thresholds `[10, 100]`. -/
theorem claim_C2_witness :
    (([(7 : ℤ), 7]).length = ([(5 : ℚ), 50]).length ∧ 1 < ([(5 : ℚ), 50]).length) ∧
      (EasySegmentation.onApply [] [(5 : ℚ), 50] 10 100 [(7 : ℤ), 7]).2.getD 1 0
        = (if (10 : ℚ) ≤ ([(5 : ℚ), 50]).getD 1 0 ∧ ([(5 : ℚ), 50]).getD 1 0 ≤ (100 : ℚ)
            then 1 else 0) :=
  ⟨⟨by decide, by decide⟩,
    (claim_C2 [] [(5 : ℚ), 50] 10 100 [(7 : ℤ), 7] (by decide) 1 (by decide)).2.2.1⟩

/-- `pySorted` permutes its input, so membership is preserved. -/
theorem mem_pySorted (a : String) (l : List String) :
    a ∈ Slicer.pySorted l ↔ a ∈ l :=
  @List.mem_insertionSort String (· ≤ ·) (fun a b => Slicer.decStrLe a b) l a

/-- `pySorted` sorts with respect to the string order. -/
theorem sorted_pySorted (l : List String) :
    List.Sorted (· ≤ ·) (Slicer.pySorted l) :=
  @List.sorted_insertionSort String (· ≤ ·) (fun a b => Slicer.decStrLe a b) _ _ l

/-- Sorting an already sorted list changes nothing. -/
theorem pySorted_idem (l : List String) :
    Slicer.pySorted (Slicer.pySorted l) = Slicer.pySorted l :=
  @List.Sorted.insertionSort_eq String (· ≤ ·) (fun a b => Slicer.decStrLe a b)
    (Slicer.pySorted l) (sorted_pySorted l)

/-- The pair built for an image file always carries that image file. -/
theorem pairImage_fst (segs : List String) (f : String) :
    (EasySegmentation.pairImage segs f).1 = f := by
  unfold EasySegmentation.pairImage
  cases List.find? (EasySegmentation.segMatches f) segs <;> rfl

/-- `List.find?` returns the first element satisfying the predicate: the
returned element occurs at some index `j`, satisfies the predicate, and
every earlier element fails it. -/
theorem find_first_spec (p : String → Bool) :
    ∀ (l : List String) (a : String), l.find? p = some a →
      ∃ j, j < l.length ∧ l.getD j "" = a ∧ p a = true ∧
        ∀ k, k < j → p (l.getD k "") = false
  | [], a, h => by simp at h
  | b :: t, a, h => by
    cases hpb : p b with
    | true =>
      rw [List.find?_cons_of_pos _ hpb] at h
      injection h with h
      subst h
      exact ⟨0, by simp, by simp, hpb, fun k hk => absurd hk (by omega)⟩
    | false =>
      rw [List.find?_cons_of_neg _ (by simp [hpb])] at h
      obtain ⟨j, hj, hget, hpa, hk⟩ := find_first_spec p t a h
      refine ⟨j + 1, by simpa using hj, by simpa using hget, hpa, ?_⟩
      intro k hk2
      cases k with
      | zero => simpa using hpb
      | succ k2 => simpa using hk k2 (by omega)

/-- C7: after `ImplantVideoWidget.onRun`, `fileset` is the sorted list of
the files of the image directory matching `*.nii.gz` (as joined paths),
`total_files` is its length, and `current_file` is 0. -/
theorem claim_C7 (imageDirectory : String) (imageListing : List String) :
    (ImplantVideo.onRun imageDirectory imageListing).fileset
      = Slicer.pySorted (Slicer.globDir imageDirectory "" ".nii.gz" imageListing) ∧
    List.Sorted (· ≤ ·) (ImplantVideo.onRun imageDirectory imageListing).fileset ∧
    (∀ p, p ∈ (ImplantVideo.onRun imageDirectory imageListing).fileset ↔
      p ∈ (imageListing.filter (Slicer.globMatch "" ".nii.gz")).map
        (Slicer.path_join imageDirectory)) ∧
    (ImplantVideo.onRun imageDirectory imageListing).total_files
      = (ImplantVideo.onRun imageDirectory imageListing).fileset.length ∧
    (ImplantVideo.onRun imageDirectory imageListing).current_file = 0 := by
  refine ⟨rfl, sorted_pySorted _, fun p => ?_, rfl, rfl⟩
  exact mem_pySorted p _

/-- C6: after `EasySegmentationWidget.onRun`, `total_files` is the number
of image files found, `current_file` is 0, and the image files appear in
`fileset` exactly in the order obtained by concatenating, pattern by
pattern over `('*.nrrd', '*.nii', '*.nii.gz')`, the sorted glob of the
image directory. -/
theorem claim_C6 (imageDirectory segDirectory : String)
    (imageListing segListing : List String) :
    (EasySegmentation.onRun imageDirectory segDirectory imageListing segListing).total_files
      = (EasySegmentation.collectFiles imageDirectory imageListing).length ∧
    (EasySegmentation.onRun imageDirectory segDirectory imageListing segListing).current_file
      = 0 ∧
    (EasySegmentation.onRun imageDirectory segDirectory imageListing segListing).fileset.map
        Prod.fst
      = EasySegmentation.collectFiles imageDirectory imageListing ∧
    EasySegmentation.collectFiles imageDirectory imageListing
      = Slicer.pySorted (Slicer.globDir imageDirectory "" ".nrrd" imageListing)
        ++ Slicer.pySorted (Slicer.globDir imageDirectory "" ".nii" imageListing)
        ++ Slicer.pySorted (Slicer.globDir imageDirectory "" ".nii.gz" imageListing) ∧
    List.Sorted (· ≤ ·)
      (Slicer.pySorted (Slicer.globDir imageDirectory "" ".nrrd" imageListing)) ∧
    List.Sorted (· ≤ ·)
      (Slicer.pySorted (Slicer.globDir imageDirectory "" ".nii" imageListing)) ∧
    List.Sorted (· ≤ ·)
      (Slicer.pySorted (Slicer.globDir imageDirectory "" ".nii.gz" imageListing)) := by
  refine ⟨by simp [EasySegmentation.onRun], rfl, ?_, ?_,
    sorted_pySorted _, sorted_pySorted _, sorted_pySorted _⟩
  · show (List.map (EasySegmentation.pairImage
        (EasySegmentation.collectFiles segDirectory segListing))
        (EasySegmentation.collectFiles imageDirectory imageListing)).map Prod.fst
      = EasySegmentation.collectFiles imageDirectory imageListing
    rw [List.map_map]
    rw [show Prod.fst ∘ EasySegmentation.pairImage
        (EasySegmentation.collectFiles segDirectory segListing) = id from
      funext fun a => pairImage_fst _ a]
    exact List.map_id _
  · show EasySegmentation.file_types.foldl _ [] = _
    simp only [EasySegmentation.file_types, List.foldl_cons, List.foldl_nil,
      List.nil_append, List.append_assoc]
    rfl

/-- C1: the fuzzy pairing of `EasySegmentationWidget.onRun`: each image
file yields exactly one pair, whose first component is that image file;
its second component is the first segmentation file (in fileset order)
whose normalised name is a substring of the image's normalised name or vice
versa (`segMatches`), or `""` when no segmentation file matches. -/
theorem claim_C1 (imageDirectory segDirectory : String)
    (imageListing segListing : List String) (i : Nat)
    (hi : i < (EasySegmentation.collectFiles imageDirectory imageListing).length) :
    let imgs := EasySegmentation.collectFiles imageDirectory imageListing
    let segs := EasySegmentation.collectFiles segDirectory segListing
    let R := EasySegmentation.onRun imageDirectory segDirectory imageListing segListing
    R.fileset.length = imgs.length ∧
    (R.fileset.getD i ("", "")).1 = imgs.getD i "" ∧
    ((∃ j, j < segs.length ∧ (R.fileset.getD i ("", "")).2 = segs.getD j "" ∧
        EasySegmentation.segMatches (imgs.getD i "") (segs.getD j "") = true ∧
        ∀ k, k < j →
          EasySegmentation.segMatches (imgs.getD i "") (segs.getD k "") = false) ∨
      ((R.fileset.getD i ("", "")).2 = "" ∧
        ∀ s ∈ segs, EasySegmentation.segMatches (imgs.getD i "") s = false)) := by
  intro imgs segs R
  have hfs : R.fileset = imgs.map (EasySegmentation.pairImage segs) := rfl
  have hib : i < (imgs.map (EasySegmentation.pairImage segs)).length := by
    simpa using hi
  have hpair : R.fileset.getD i ("", "")
      = EasySegmentation.pairImage segs (imgs.getD i "") := by
    rw [hfs, List.getD_eq_getElem _ _ hib, List.getElem_map,
      List.getD_eq_getElem _ _ hi]
  refine ⟨by rw [hfs, List.length_map], by rw [hpair, pairImage_fst], ?_⟩
  cases hf : List.find? (EasySegmentation.segMatches (imgs.getD i "")) segs with
  | some s =>
    left
    obtain ⟨j, hj, hget, hps, hk⟩ := find_first_spec _ segs s hf
    refine ⟨j, hj, ?_, by rw [hget]; exact hps, hk⟩
    rw [hpair]
    unfold EasySegmentation.pairImage
    rw [hf, hget]
  | none =>
    right
    constructor
    · rw [hpair]
      unfold EasySegmentation.pairImage
      rw [hf]
    · intro s hs
      have := List.find?_eq_none.mp hf s hs
      simpa using this

/-- Witness for C1 on a one-image, one-segmentation directory pair. -/
theorem claim_C1_witness :
    0 < (EasySegmentation.collectFiles "im" ["b.nii"]).length ∧
      ((EasySegmentation.onRun "im" "sg" ["b.nii"] ["b_seg.nii"]).fileset.getD 0
          ("", "")).1
        = (EasySegmentation.collectFiles "im" ["b.nii"]).getD 0 "" :=
  ⟨by decide, (claim_C1 "im" "sg" ["b.nii"] ["b_seg.nii"] 0 (by decide)).2.1⟩

/-- The accumulator is a lower bound of a `foldl max`. -/
theorem foldl_max_le_self : ∀ (xs : List ℚ) (a : ℚ), a ≤ xs.foldl max a
  | [], a => le_refl a
  | x :: xs, a => le_trans (le_max_left a x) (foldl_max_le_self xs (max a x))

/-- Every list element is a lower bound of a `foldl max` over the list. -/
theorem foldl_max_le_mem :
    ∀ (xs : List ℚ) (a x : ℚ), x ∈ xs → x ≤ xs.foldl max a
  | [], _, _, h => absurd h (List.not_mem_nil _)
  | y :: ys, a, x, h => by
    rcases List.mem_cons.mp h with rfl | h2
    · exact le_trans (le_max_right a x) (foldl_max_le_self ys (max a x))
    · exact foldl_max_le_mem ys (max a y) x h2

/-- A `foldl max` is the accumulator or one of the list elements. -/
theorem foldl_max_mem :
    ∀ (xs : List ℚ) (a : ℚ), xs.foldl max a = a ∨ xs.foldl max a ∈ xs
  | [], a => Or.inl rfl
  | y :: ys, a => by
    rw [List.foldl_cons]
    rcases foldl_max_mem ys (max a y) with h | h
    · rw [h]
      rcases max_choice a y with h2 | h2
      · exact Or.inl h2
      · exact Or.inr (by rw [h2]; exact List.mem_cons_self y ys)
    · exact Or.inr (List.mem_cons_of_mem y h)

/-- `arrayMax` computes `numpy_array.max()`: a member of the nonempty list
bounding every element. -/
theorem arrayMax_spec (l : List ℚ) (h : l ≠ []) :
    EasySegmentation.arrayMax l ∈ l ∧ ∀ x ∈ l, x ≤ EasySegmentation.arrayMax l := by
  cases l with
  | nil => exact absurd rfl h
  | cons y ys =>
    have harr : EasySegmentation.arrayMax (y :: ys) = List.foldl max y ys := rfl
    rw [harr]
    constructor
    · rcases foldl_max_mem ys y with h2 | h2
      · rw [h2]
        exact List.mem_cons_self y ys
      · exact List.mem_cons_of_mem y h2
    · intro x hx
      rcases List.mem_cons.mp hx with rfl | hx2
      · exact foldl_max_le_self ys x
      · exact foldl_max_le_mem ys y x hx2

/-- C4: `EasySegmentationWidget.LoadFiles`, when the image directory is set
and files were found, loads the current pair's volume and renames it to the
image basename without extension; with a paired segmentation file it loads
that file and disables the threshold controls, otherwise it creates a new
segmentation node named after the image, sets its reference geometry from
the volume, puts the volume's maximum voxel value into the max box, and
enables the threshold checkbox. -/
theorem claim_C4 (imageDirectory : String) (total_files : Nat)
    (fileset : List (String × String)) (current_file : Nat)
    (volumeData : String → List ℚ) (thresholdChecked : Bool)
    (hdir : imageDirectory ≠ "") (htot : total_files ≠ 0)
    (hvol : volumeData (fileset.getD current_file ("", "")).1 ≠ []) :
    (EasySegmentation.LoadFiles imageDirectory total_files fileset current_file
        volumeData thresholdChecked).warned = false ∧
    (EasySegmentation.LoadFiles imageDirectory total_files fileset current_file
        volumeData thresholdChecked).volumeLoadedFrom
      = some (fileset.getD current_file ("", "")).1 ∧
    (EasySegmentation.LoadFiles imageDirectory total_files fileset current_file
        volumeData thresholdChecked).volumeName
      = some (EasySegmentation.find_basename_wo_extension
          (fileset.getD current_file ("", "")).1) ∧
    ((fileset.getD current_file ("", "")).2 ≠ "" →
      (EasySegmentation.LoadFiles imageDirectory total_files fileset current_file
          volumeData thresholdChecked).segLoadedFrom
        = some (fileset.getD current_file ("", "")).2 ∧
      (EasySegmentation.LoadFiles imageDirectory total_files fileset current_file
          volumeData thresholdChecked).segCreatedName = none ∧
      (EasySegmentation.LoadFiles imageDirectory total_files fileset current_file
          volumeData thresholdChecked).thresholdCheckDisabled = some true ∧
      (EasySegmentation.LoadFiles imageDirectory total_files fileset current_file
          volumeData thresholdChecked).minBoxDisabled = some true ∧
      (EasySegmentation.LoadFiles imageDirectory total_files fileset current_file
          volumeData thresholdChecked).maxBoxDisabled = some true ∧
      (EasySegmentation.LoadFiles imageDirectory total_files fileset current_file
          volumeData thresholdChecked).applyDisabled = some true) ∧
    ((fileset.getD current_file ("", "")).2 = "" →
      (EasySegmentation.LoadFiles imageDirectory total_files fileset current_file
          volumeData thresholdChecked).segCreatedName
        = some (EasySegmentation.find_basename_wo_extension
            (fileset.getD current_file ("", "")).1) ∧
      (EasySegmentation.LoadFiles imageDirectory total_files fileset current_file
          volumeData thresholdChecked).segRefGeometryFromVolume = true ∧
      (EasySegmentation.LoadFiles imageDirectory total_files fileset current_file
          volumeData thresholdChecked).thresholdCheckDisabled = some false ∧
      ∃ m, (EasySegmentation.LoadFiles imageDirectory total_files fileset current_file
          volumeData thresholdChecked).maxBoxValue = some m ∧
        m ∈ volumeData (fileset.getD current_file ("", "")).1 ∧
        ∀ x ∈ volumeData (fileset.getD current_file ("", "")).1, x ≤ m) := by
  refine ⟨?_, ?_, ?_, fun hp => ?_, fun hp => ?_⟩ <;>
    simp only [EasySegmentation.LoadFiles, if_neg hdir, if_neg htot]
  · split_ifs <;> rfl
  · split_ifs <;> rfl
  · split_ifs <;> rfl
  · rw [if_pos hp]
    exact ⟨rfl, rfl, rfl, rfl, rfl, rfl⟩
  · rw [if_neg (by simpa using hp)]
    refine ⟨rfl, rfl, rfl,
      EasySegmentation.arrayMax (volumeData (fileset.getD current_file ("", "")).1),
      rfl, ?_, ?_⟩
    · exact (arrayMax_spec _ hvol).1
    · exact (arrayMax_spec _ hvol).2

/-- Witness for C4 on a single unmatched image file. -/
theorem claim_C4_witness :
    (("im" : String) ≠ "" ∧ (1 : Nat) ≠ 0 ∧
      (fun _ => [(3 : ℚ), 7]) (([("a.nii.gz", "")].getD 0 ("", "")).1) ≠ ([] : List ℚ)) ∧
      (EasySegmentation.LoadFiles "im" 1 [("a.nii.gz", "")] 0
          (fun _ => [(3 : ℚ), 7]) false).volumeName
        = some (EasySegmentation.find_basename_wo_extension "a.nii.gz") :=
  ⟨⟨by decide, by decide, by decide⟩,
    (claim_C4 "im" 1 [("a.nii.gz", "")] 0 (fun _ => [(3 : ℚ), 7]) false
      (by decide) (by decide) (by decide)).2.2.1⟩

/-- C5: `EasySegmentationWidget.onSave`, with a destination set, files
loaded, and the Segmentation checkbox checked, exports the labelmap to
`<saveDirectory>/segmentation/<name><suffix>.nii.gz`, ensuring the
`segmentation` subdirectory exists, where `<name>` is the extension-stripped
basename of the paired segmentation file (or of the segmentation node's
name when the pair has none) and `<suffix>` is the suffix-box text when the
suffix button is checked and empty otherwise; the temporary labelmap node
and its color node are removed afterwards. -/
theorem claim_C5 (saveDirectory : String) (total_files : Nat)
    (fileset : List (String × String)) (current_file : Nat)
    (segNodeName : String) (imageChecked suffixChecked : Bool)
    (suffixText : String)
    (hdir : saveDirectory ≠ "") (htot : total_files ≠ 0) :
    (EasySegmentation.onSave saveDirectory total_files fileset current_file
        segNodeName imageChecked true suffixChecked suffixText).warned = false ∧
    (EasySegmentation.onSave saveDirectory total_files fileset current_file
        segNodeName imageChecked true suffixChecked suffixText).segDirEnsured = true ∧
    (EasySegmentation.onSave saveDirectory total_files fileset current_file
        segNodeName imageChecked true suffixChecked suffixText).colorNodeRemoved = true ∧
    (EasySegmentation.onSave saveDirectory total_files fileset current_file
        segNodeName imageChecked true suffixChecked suffixText).labelmapRemoved = true ∧
    (EasySegmentation.onSave saveDirectory total_files fileset current_file
        segNodeName imageChecked true suffixChecked suffixText).segSavedPath
      = some (Slicer.path_join (Slicer.path_join saveDirectory "segmentation")
          (EasySegmentation.find_basename_wo_extension
              (if (fileset.getD current_file ("", "")).2 ≠ ""
                then Slicer.osBasename (fileset.getD current_file ("", "")).2
                else segNodeName)
            ++ (if suffixChecked then suffixText else "") ++ ".nii.gz")) := by
  simp only [EasySegmentation.onSave, if_neg hdir, if_neg htot, if_pos rfl]
  refine ⟨?_, ?_, ?_, ?_, ?_⟩
  · rfl
  · rfl
  · rfl
  · rfl
  · cases hsuf : suffixChecked <;> simp [hsuf, String.append_assoc]

/-- Witness for C5 on a pair with no segmentation file and active suffix. -/
theorem claim_C5_witness :
    (("out" : String) ≠ "" ∧ (1 : Nat) ≠ 0) ∧
      (EasySegmentation.onSave "out" 1 [("a.nii.gz", "")] 0 "a" false true true
          "_seg").segSavedPath
        = some (Slicer.path_join (Slicer.path_join "out" "segmentation")
            (EasySegmentation.find_basename_wo_extension
                (if ([("a.nii.gz", "")].getD 0 ("", "")).2 ≠ ""
                  then Slicer.osBasename ([("a.nii.gz", "")].getD 0 ("", "")).2
                  else "a")
              ++ (if (true : Bool) then "_seg" else "") ++ ".nii.gz")) :=
  ⟨⟨by decide, by decide⟩,
    (claim_C5 "out" 1 [("a.nii.gz", "")] 0 "a" false true "_seg"
      (by decide) (by decide)).2.2.2.2⟩

/-- Appending to a fixed string is injective. -/
theorem str_append_left_cancel (d x y : String) (h : d ++ x = d ++ y) : x = y := by
  have h2 : (d ++ x).data = (d ++ y).data := by rw [h]
  rw [String.data_append, String.data_append] at h2
  exact String.toList_inj.mp (List.append_cancel_left h2)

/-- Joining with a fixed directory is injective on file names. -/
theorem path_join_inj (d x y : String) (h : Slicer.path_join d x = Slicer.path_join d y) :
    x = y := by
  unfold Slicer.path_join at h
  split_ifs at h
  · exact h
  · exact str_append_left_cancel d x y h
  · have h2 : (d ++ "/") ++ x = (d ++ "/") ++ y := by
      calc (d ++ "/") ++ x = d ++ "/" ++ x := rfl
      _ = d ++ "/" ++ y := h
      _ = (d ++ "/") ++ y := rfl
    exact str_append_left_cancel (d ++ "/") x y h2

/-- Every file the screenshot capture writes matches the glob
`image_*.png`. -/
theorem captureOutputs_match (n : Nat) :
    ∀ c ∈ ImplantVideo.captureOutputs n,
      Slicer.globMatch "image_" ".png" c = true := by
  intro c hc
  obtain ⟨i, _, rfl⟩ := List.mem_map.mp hc
  unfold Slicer.globMatch
  rw [if_neg (by decide : ¬("image_" : String) = "")]
  have hdata : ("image_" ++ ImplantVideo.pad5 i ++ ".png").data
      = "image_".data ++ ((ImplantVideo.pad5 i).data ++ ".png".data) := by
    rw [String.data_append, String.data_append, List.append_assoc]
  rw [hdata]
  have hpre : ("image_" : String).data <+:
      "image_".data ++ ((ImplantVideo.pad5 i).data ++ ".png".data) :=
    List.prefix_append _ _
  have hdrop : ("image_".data ++ ((ImplantVideo.pad5 i).data ++ ".png".data)).drop
      ("image_" : String).data.length = (ImplantVideo.pad5 i).data ++ ".png".data :=
    List.drop_left _ _
  rw [hdrop]
  simp only [Bool.and_eq_true, decide_eq_true_eq]
  exact ⟨hpre, List.suffix_append _ _⟩

/-- No name of the shape `x ++ ".mp4"` matches the glob `image_*.png`. -/
theorem mp4_not_png (x : String) :
    Slicer.globMatch "image_" ".png" (x ++ ".mp4") = false := by
  unfold Slicer.globMatch
  rw [Bool.and_eq_false_iff]
  right
  rw [decide_eq_false_iff_not]
  intro hsuf
  have h1 : (".png" : String).data <:+ (x ++ ".mp4").data :=
    hsuf.trans (List.drop_suffix _ _)
  rw [String.data_append] at h1
  obtain ⟨u, hu⟩ := h1
  obtain ⟨v, hv⟩ := List.suffix_append x.data (".mp4" : String).data
  have h4 := congrArg List.length hu
  have h5 := congrArg List.length hv
  simp only [List.length_append] at h4 h5
  have hlen : u.length = v.length := by
    simp at h4 h5
    omega
  have heq := (List.append_inj (hu.trans hv.symm) hlen).2
  exact absurd heq (by decide)

/-- Membership in the sorted glob of a directory listing, through the
injectivity of the path join. -/
theorem mem_sorted_glob (d f : String) (m : List String) :
    Slicer.path_join d f ∈
        Slicer.pySorted (Slicer.pySorted (Slicer.globDir d "image_" ".png" m))
      ↔ f ∈ m ∧ Slicer.globMatch "image_" ".png" f = true := by
  rw [mem_pySorted, mem_pySorted]
  unfold Slicer.globDir
  rw [List.mem_map]
  constructor
  · rintro ⟨a, ha, hja⟩
    have : a = f := path_join_inj d a f hja
    subst this
    exact List.mem_filter.mp ha
  · intro h
    exact ⟨f, List.mem_filter.mpr h, rfl⟩

/-- C3: `ImplantVideoWidget.onCreateVideo`, with a destination set,
captures 360 rotation frames from -180 to +180 degrees into the save
directory under the pattern `image_%05d.png` (the capture itself is a host
API, modelled from the spec by `captureOutputs`), then assembles the files
matching `image_*.png`, in sorted order, into a 60 fps video named after
the current `.nii.gz` file's basename with the extension replaced by
`.mp4`, inside the save directory.  `stem` names the basename up to its
`.nii.gz` extension. -/
theorem claim_C3 (saveDirectory : String) (fileset : List String)
    (current_file : Nat) (fs : List String) (stem : List Char)
    (hdir : saveDirectory ≠ "")
    (hbase : (Slicer.osBasename (fileset.getD current_file "")).data
      = stem ++ (".nii.gz" : String).data)
    (hfirst : Slicer.findSubIdxL (".nii.gz" : String).data
        (Slicer.osBasename (fileset.getD current_file "")).data
      = some stem.length) :
    (ImplantVideo.onCreateVideo saveDirectory fileset current_file fs).isSome = true ∧
    ((ImplantVideo.onCreateVideo saveDirectory fileset current_file fs).getD
        default).captureStart = -180 ∧
    ((ImplantVideo.onCreateVideo saveDirectory fileset current_file fs).getD
        default).captureEnd = 180 ∧
    ((ImplantVideo.onCreateVideo saveDirectory fileset current_file fs).getD
        default).captureFrames = 360 ∧
    ((ImplantVideo.onCreateVideo saveDirectory fileset current_file fs).getD
        default).capturePattern = "image_%05d.png" ∧
    ((ImplantVideo.onCreateVideo saveDirectory fileset current_file fs).getD
        default).captured = ImplantVideo.captureOutputs 360 ∧
    ((ImplantVideo.onCreateVideo saveDirectory fileset current_file fs).getD
        default).fps = 60 ∧
    ((ImplantVideo.onCreateVideo saveDirectory fileset current_file fs).getD
        default).videoName = String.mk stem ++ ".mp4" ∧
    ((ImplantVideo.onCreateVideo saveDirectory fileset current_file fs).getD
        default).videoFile
      = Slicer.path_join saveDirectory (String.mk stem ++ ".mp4") ∧
    ((ImplantVideo.onCreateVideo saveDirectory fileset current_file fs).getD
        default).imagesUsed
      = Slicer.pySorted (Slicer.globDir saveDirectory "image_" ".png"
          (fs.filter (fun f => !(f ∈ ImplantVideo.captureOutputs 360 : Bool))
            ++ ImplantVideo.captureOutputs 360)) ∧
    List.Sorted (· ≤ ·)
      ((ImplantVideo.onCreateVideo saveDirectory fileset current_file fs).getD
        default).imagesUsed := by
  have hname : Slicer.pySliceToFind ".nii.gz"
      (Slicer.osBasename (fileset.getD current_file "")) = String.mk stem := by
    unfold Slicer.pySliceToFind
    rw [hfirst, hbase]
    show (⟨List.take stem.length (stem ++ (".nii.gz" : String).data)⟩ : String)
      = ⟨stem⟩
    rw [List.take_left]
  unfold ImplantVideo.onCreateVideo
  rw [if_neg hdir]
  refine ⟨rfl, rfl, rfl, rfl, rfl, rfl, rfl, ?_, ?_, ?_, ?_⟩
  · show Slicer.pySliceToFind ".nii.gz"
        (Slicer.osBasename (fileset.getD current_file "")) ++ ".mp4"
      = String.mk stem ++ ".mp4"
    rw [hname]
  · show Slicer.path_join saveDirectory
        (Slicer.pySliceToFind ".nii.gz"
          (Slicer.osBasename (fileset.getD current_file "")) ++ ".mp4")
      = Slicer.path_join saveDirectory (String.mk stem ++ ".mp4")
    rw [hname]
  · exact pySorted_idem _
  · exact sorted_pySorted _

/-- Witness for C3 on a one-file fileset with empty save directory listing. -/
theorem claim_C3_witness :
    (("out" : String) ≠ "" ∧
      (Slicer.osBasename ((["a.nii.gz"] : List String).getD 0 "")).data
        = ['a'] ++ (".nii.gz" : String).data ∧
      Slicer.findSubIdxL (".nii.gz" : String).data
          (Slicer.osBasename ((["a.nii.gz"] : List String).getD 0 "")).data
        = some (['a'] : List Char).length) ∧
    ((ImplantVideo.onCreateVideo "out" ["a.nii.gz"] 0 []).getD default).fps = 60 :=
  ⟨⟨by decide, by decide, by decide⟩,
    (claim_C3 "out" ["a.nii.gz"] 0 [] ['a'] (by decide) (by decide)
      (by decide)).2.2.2.2.2.2.1⟩

/-- The file-set effect of the tail of `onCreateVideo`: every name matching
`image_*.png` (captured or pre-existing) is removed, no other name is
removed, and the video file remains. -/
theorem createVideo_fs_spec (d video_name : String)
    (fs fsMid images fsVideo fsAfter : List String)
    (hvn : ∃ x, video_name = x ++ ".mp4")
    (hMid : fsMid = fs.filter (fun f => !(f ∈ ImplantVideo.captureOutputs 360 : Bool))
      ++ ImplantVideo.captureOutputs 360)
    (hImg : images = Slicer.pySorted
      (Slicer.pySorted (Slicer.globDir d "image_" ".png" fsMid)))
    (hVid : fsVideo = fsMid.filter (fun f => !(f = video_name : Bool)) ++ [video_name])
    (hAft : fsAfter = fsVideo.filter
      (fun f => !(Slicer.path_join d f ∈ images : Bool))) :
    (∀ f, Slicer.globMatch "image_" ".png" f = true → f ∉ fsAfter) ∧
    (∀ f ∈ fs, Slicer.globMatch "image_" ".png" f = false → f ∈ fsAfter) ∧
    video_name ∈ fsAfter := by
  obtain ⟨xstem, rfl⟩ := hvn
  subst hImg
  have himg : ∀ f, Slicer.path_join d f ∈ Slicer.pySorted
      (Slicer.pySorted (Slicer.globDir d "image_" ".png" fsMid))
      ↔ f ∈ fsMid ∧ Slicer.globMatch "image_" ".png" f = true :=
    fun f => mem_sorted_glob d f fsMid
  have hAfterMem : ∀ f, f ∈ fsAfter ↔ f ∈ fsVideo ∧
      ¬ Slicer.path_join d f ∈ Slicer.pySorted
        (Slicer.pySorted (Slicer.globDir d "image_" ".png" fsMid)) := by
    intro f
    rw [hAft, List.mem_filter]
    simp only [Bool.not_eq_eq_eq_not, Bool.not_true, decide_eq_false_iff_not]
  have hVidMem : ∀ f, f ∈ fsVideo ↔
      ((f ∈ fsMid ∧ f ≠ xstem ++ ".mp4") ∨ f = xstem ++ ".mp4") := by
    intro f
    rw [hVid, List.mem_append, List.mem_filter, List.mem_singleton]
    simp only [Bool.not_eq_eq_eq_not, Bool.not_true, decide_eq_false_iff_not]
  refine ⟨?_, ?_, ?_⟩
  · intro f hmatch hin
    obtain ⟨hfv, hnimg⟩ := (hAfterMem f).mp hin
    rcases (hVidMem f).mp hfv with ⟨hmid, _⟩ | hveq
    · exact hnimg ((himg f).mpr ⟨hmid, hmatch⟩)
    · rw [hveq] at hmatch
      rw [mp4_not_png xstem] at hmatch
      exact Bool.false_ne_true hmatch
  · intro f hf hnm
    have hnc : f ∉ ImplantVideo.captureOutputs 360 := by
      intro hc
      rw [captureOutputs_match 360 f hc] at hnm
      exact absurd hnm (by decide)
    have hmid : f ∈ fsMid := by
      rw [hMid, List.mem_append]
      left
      rw [List.mem_filter]
      refine ⟨hf, ?_⟩
      simp only [Bool.not_eq_eq_eq_not, Bool.not_true, decide_eq_false_iff_not]
      exact hnc
    have hnimg : ¬ Slicer.path_join d f ∈ Slicer.pySorted
        (Slicer.pySorted (Slicer.globDir d "image_" ".png" fsMid)) := by
      intro himage
      have := ((himg f).mp himage).2
      rw [this] at hnm
      exact absurd hnm (by decide)
    refine (hAfterMem f).mpr ⟨?_, hnimg⟩
    by_cases hveq : f = xstem ++ ".mp4"
    · exact (hVidMem f).mpr (Or.inr hveq)
    · exact (hVidMem f).mpr (Or.inl ⟨hmid, hveq⟩)
  · have hnimg : ¬ Slicer.path_join d (xstem ++ ".mp4") ∈ Slicer.pySorted
        (Slicer.pySorted (Slicer.globDir d "image_" ".png" fsMid)) := by
      intro himage
      have := ((himg _).mp himage).2
      rw [mp4_not_png xstem] at this
      exact Bool.false_ne_true this
    exact (hAfterMem _).mpr ⟨(hVidMem _).mpr (Or.inr rfl), hnimg⟩

/-- C10 (amended): after `onCreateVideo` writes the video, every file in
the save directory matching `image_*.png` — the captured frames and any
pre-existing file matching that pattern — has been deleted, no file that
does not match `image_*.png` is removed, and the created video file
remains. -/
theorem claim_C10 (saveDirectory : String) (fileset : List String)
    (current_file : Nat) (fs : List String) (hdir : saveDirectory ≠ "") :
    ∃ r, ImplantVideo.onCreateVideo saveDirectory fileset current_file fs = some r ∧
      (∀ f, Slicer.globMatch "image_" ".png" f = true → f ∉ r.fsAfter) ∧
      (∀ f ∈ fs, Slicer.globMatch "image_" ".png" f = false → f ∈ r.fsAfter) ∧
      r.videoName ∈ r.fsAfter := by
  unfold ImplantVideo.onCreateVideo
  rw [if_neg hdir]
  refine ⟨_, rfl, ?_, ?_, ?_⟩
  · exact (createVideo_fs_spec saveDirectory _ fs _ _ _ _ ⟨_, rfl⟩
      rfl rfl rfl rfl).1
  · exact (createVideo_fs_spec saveDirectory _ fs _ _ _ _ ⟨_, rfl⟩
      rfl rfl rfl rfl).2.1
  · exact (createVideo_fs_spec saveDirectory _ fs _ _ _ _ ⟨_, rfl⟩
      rfl rfl rfl rfl).2.2

/-- Witness for the amended C10 on a one-file fileset and a directory
holding one unrelated file. -/
theorem claim_C10_witness :
    ("out" : String) ≠ "" ∧
    (∃ r, ImplantVideo.onCreateVideo "out" ["a.nii.gz"] 0 ["keep.txt"] = some r ∧
      (∀ f, Slicer.globMatch "image_" ".png" f = true → f ∉ r.fsAfter) ∧
      (∀ f ∈ (["keep.txt"] : List String),
        Slicer.globMatch "image_" ".png" f = false → f ∈ r.fsAfter) ∧
      r.videoName ∈ r.fsAfter) :=
  ⟨by decide, claim_C10 "out" ["a.nii.gz"] 0 ["keep.txt"] (by decide)⟩

set_option maxRecDepth 100000 in
/-- C10 counterexample: the claim as stated says that besides intermediate
screenshots nothing else in the save directory is removed.  This is false:
a pre-existing file `image_extra.png` in the save directory — which is not
one of the captured screenshot frames — also matches the glob and is
removed by the call. -/
theorem claim_C10_counterexample :
    "image_extra.png" ∈ (["image_extra.png", "notes.txt"] : List String) ∧
    "image_extra.png" ∉ ImplantVideo.captureOutputs 360 ∧
    "image_extra.png" ∉
      ((ImplantVideo.onCreateVideo "out" ["a.nii.gz"] 0
        ["image_extra.png", "notes.txt"]).getD default).fsAfter := by
  refine ⟨by decide, by decide, ?_⟩
  have h := (createVideo_fs_spec "out"
    (Slicer.pySliceToFind ".nii.gz"
      (Slicer.osBasename ((["a.nii.gz"] : List String).getD 0 "")) ++ ".mp4")
    ["image_extra.png", "notes.txt"] _ _ _ _ ⟨_, rfl⟩ rfl rfl rfl rfl).1
  exact h "image_extra.png" (by decide)
